import Mathlib

/-!
# amaptrafficindex: the ingestion pipeline of `main.go`

A shallow embedding of `main.go` (one HTTP GET, a raw snapshot write, a JSON
decode into `[]TrafficData`, a transactional batch insert) and the properties
of it that the specification states.

The program is one sequential function whose every step talks to the outside:
the HTTP client, the file system, the clock and the database.  The outcome of
each such call is an input of the model (`Env`), the effects are recorded in an
explicit `State` (snapshot file, committed table, open transaction, ordered log
of calls).  Two pieces of the Go standard library are kept abstract (`Lib`):
the JSON text grammar and the conversion of a number literal to a float64.
-/

set_option autoImplicit false
set_option maxRecDepth 100000

namespace AmapTrafficIndex

/-! ## Data model -/

/-- Raw bytes, an HTTP body or a file content: each element is one byte, a number
below 256.  The program never looks into them, it hands them on. -/
abbrev Bytes := List Nat

/-- A Go `float64`, kept as its IEEE-754 bit pattern.  The program never
computes with one, it only moves them from the decoder to the database. -/
structure Float64 where
  bits : Nat
deriving DecidableEq, Repr

/-- The type `TrafficData` (main.go, lines 23-29).  `Number` is a Go `int`, taken
at 64 bits. -/
structure TrafficData where
  ID : String
  Index : Float64
  Name : String
  Number : Int
  Speed : Float64
deriving DecidableEq, Repr

/-- The Go zero value of `TrafficData`. -/
def TrafficData.zero : TrafficData := ⟨"", ⟨0⟩, "", 0, ⟨0⟩⟩

/-! ## `encoding/json`: decoding a JSON value into `[]TrafficData` -/

/-- A JSON number literal: sign, integer part, and the text of the fraction
and of the exponent when the literal has them. -/
structure NumLit where
  neg : Bool
  int : Nat
  frac : Option String
  exp : Option String
deriving DecidableEq, Repr

/-- A JSON value.  Strings are already unquoted; object members are kept in
text order, duplicates included. -/
inductive JSON where
  | null
  | bool (b : Bool)
  | num (n : NumLit)
  | str (s : String)
  | arr (elems : List JSON)
  | obj (members : List (String × JSON))

/-- The six JSON types. -/
inductive Kind where
  | null | bool | number | string | array | object
deriving DecidableEq, Repr

/-- The JSON type of a value. -/
def JSON.kind : JSON → Kind
  | .null => .null
  | .bool _ => .bool
  | .num _ => .number
  | .str _ => .string
  | .arr _ => .array
  | .obj _ => .object

/-- What `json.Unmarshal` can return as an error: the text is not JSON, or a
JSON value of kind `value` does not fit the Go value it is decoded into
(`*json.UnmarshalTypeError`; the rest of its fields is not modelled). -/
inductive UnmarshalError where
  | malformed
  | typeError (value : Kind)
deriving DecidableEq, Repr

/-- The five exported fields of `TrafficData`. -/
inductive Field where
  | id | index | name | number | speed
deriving DecidableEq, Repr

/-- The `json:"..."` tag of each field (main.go, lines 24-28). -/
def Field.tag : Field → String
  | .id => "id"
  | .index => "index"
  | .name => "name"
  | .number => "number"
  | .speed => "speed"

/-- All fields, in declaration order. -/
def Field.all : List Field := [.id, .index, .name, .number, .speed]

/-- Case folding of one rune as `encoding/json` applies it to member names:
ASCII letters to upper case, and the two non-ASCII runes that fold onto an
ASCII letter (U+017F onto S, U+212A onto K).  Other runes are left alone: their
fold is never an ASCII letter, which is all a comparison with the five ASCII
tags can see. -/
def foldRune (c : Char) : Char :=
  if 'a' ≤ c ∧ c ≤ 'z' then Char.ofNat (c.toNat - 32)
  else if c = 'ſ' then 'S'
  else if c = 'K' then 'K'
  else c

/-- The folded form of a member name. -/
def foldName (s : String) : List Char := s.toList.map foldRune

/-- The struct field a member name selects: an exact match of the tag first,
a case-insensitive match otherwise, no field when neither matches. -/
def fieldOf (key : String) : Option Field :=
  match Field.all.find? (fun f => f.tag = key) with
  | some f => some f
  | none => Field.all.find? (fun f => foldName f.tag = foldName key)

/-- The function `strconv.ParseInt(lit, 10, 64)` on a JSON number literal: a
fraction or an exponent is a syntax error, a value outside int64 a range
error. -/
def parseInt (n : NumLit) : Option Int :=
  if n.frac.isSome ∨ n.exp.isSome then none
  else
    let v : Int := if n.neg then -(n.int : Int) else (n.int : Int)
    if -(2 : Int) ^ 63 ≤ v ∧ v ≤ (2 : Int) ^ 63 - 1 then some v else none

/-- The parts of the Go standard library that are taken as given: `scan` is the
JSON value a byte sequence denotes (`none` when it is not valid JSON text),
`parseFloat` is `strconv.ParseFloat(lit, 64)` on a number literal (`none` when
it reports an error). -/
structure Lib where
  scan : Bytes → Option JSON
  parseFloat : NumLit → Option Float64

/-- The decoder keeps the first error it meets and goes on
(`decodeState.saveError`). -/
def saveError (e : UnmarshalError) : Option UnmarshalError → Option UnmarshalError
  | none => some e
  | some e0 => some e0

/-- Storing one member value into the field it selects.  `null` leaves a
string or a number field as it is; a value of another JSON type than the
field's, or a number the field cannot hold, is a type error and the field is
left as it is. -/
def store (lib : Lib) (f : Field) (v : JSON) (r : TrafficData) :
    Except UnmarshalError TrafficData :=
  match v with
  | .null => .ok r
  | .str s =>
    match f with
    | .id => .ok { r with ID := s }
    | .name => .ok { r with Name := s }
    | _ => .error (.typeError .string)
  | .num n =>
    match f with
    | .index =>
      match lib.parseFloat n with
      | some x => .ok { r with Index := x }
      | none => .error (.typeError .number)
    | .speed =>
      match lib.parseFloat n with
      | some x => .ok { r with Speed := x }
      | none => .error (.typeError .number)
    | .number =>
      match parseInt n with
      | some i => .ok { r with Number := i }
      | none => .error (.typeError .number)
    | _ => .error (.typeError .number)
  | .bool _ => .error (.typeError .bool)
  | .arr _ => .error (.typeError .array)
  | .obj _ => .error (.typeError .object)

/-- One member of an object decoded into a struct: a name that selects no field
is skipped, otherwise the value is stored. -/
def member (lib : Lib) (st : TrafficData × Option UnmarshalError) (m : String × JSON) :
    TrafficData × Option UnmarshalError :=
  match fieldOf m.1 with
  | none => st
  | some f =>
    match store lib f m.2 st.1 with
    | .ok r => (r, st.2)
    | .error e => (st.1, saveError e st.2)

/-- A JSON object decoded into a struct: its members in text order. -/
def object (lib : Lib) (ms : List (String × JSON)) (st : TrafficData × Option UnmarshalError) :
    TrafficData × Option UnmarshalError :=
  ms.foldl (member lib) st

/-- One array element decoded into a fresh (zero) `TrafficData`. -/
def element (lib : Lib) (v : JSON) (saved : Option UnmarshalError) :
    TrafficData × Option UnmarshalError :=
  match v with
  | .obj ms => object lib ms (TrafficData.zero, saved)
  | .null => (TrafficData.zero, saved)
  | .bool _ => (TrafficData.zero, saveError (.typeError .bool) saved)
  | .num _ => (TrafficData.zero, saveError (.typeError .number) saved)
  | .str _ => (TrafficData.zero, saveError (.typeError .string) saved)
  | .arr _ => (TrafficData.zero, saveError (.typeError .array) saved)

/-- A JSON array decoded into the slice: one element after the other, the
saved error carried along. -/
def array (lib : Lib) : List JSON → Option UnmarshalError →
    List TrafficData × Option UnmarshalError
  | [], saved => ([], saved)
  | v :: vs, saved =>
    let r := element lib v saved
    let rest := array lib vs r.2
    (r.1 :: rest.1, rest.2)

/-- A JSON value decoded into `var data []TrafficData`. -/
def value (lib : Lib) : JSON → List TrafficData × Option UnmarshalError
  | .arr vs => array lib vs none
  | .null => ([], none)
  | .bool _ => ([], some (.typeError .bool))
  | .num _ => ([], some (.typeError .number))
  | .str _ => ([], some (.typeError .string))
  | .obj _ => ([], some (.typeError .object))

/-- The call `json.Unmarshal(body, &data)` (main.go, line 81): the slice after
the call and the returned error (`none` for nil). -/
def Unmarshal (lib : Lib) (body : Bytes) : List TrafficData × Option UnmarshalError :=
  match lib.scan body with
  | none => ([], some .malformed)
  | some v => value lib v

/-! ## The outside world -/

/-- A value bound to a placeholder of the insert statement. -/
inductive SqlValue where
  | text (s : String)
  | int (i : Int)
  | float (x : Float64)
deriving DecidableEq, Repr

/-- A row of `gz_traffic_index`: column name and value, in column order. -/
abbrev Row := List (String × SqlValue)

/-- The column list of the insert statement (main.go, line 106); the statement
binds placeholder `$k` to the k-th of them (line 107). -/
def columns : List String :=
  ["zone_id", "zone_name", "zone_number", "traffic_index", "avg_speed", "record_time"]

/-- The request built at main.go, lines 33-50. -/
structure Request where
  method : String
  url : String
  header : List (String × String)
  query : List (String × String)
deriving DecidableEq, Repr

/-- The request of the program: a GET with three headers and two query
parameters, all constants. -/
def request : Request :=
  { method := "GET"
    url := "https://report.amap.com/ajax/districtRank.do"
    header :=
      [("User-Agent", "Mozilla/5.0 (Windows NT 10.0; Win64; x64) AppleWebKit/537.36 (KHTML, like Gecko) Chrome/135.0.0.0 Safari/537.36"),
       ("Accept", "text/html,application/xhtml+xml,application/xml;q=0.9,image/avif,image/webp,image/apng,*/*;q=0.8"),
       ("Accept-Language", "zh-CN,zh;q=0.9")]
    query := [("linksType", "4"), ("cityCode", "440100")] }

/-- An HTTP response as the program uses it: the status code, and what
`io.ReadAll(resp.Body)` gives (`none` when the read fails). -/
structure Response where
  StatusCode : Int
  Body : Option Bytes
deriving DecidableEq, Repr

/-- The lines the program prints, one constructor per `Printf`/`Println` of
main.go; the formatting of the values is not modelled. -/
inductive Msg where
  | warnNoDotenv
  | errCreatingRequest
  | errFetching
  | errStatus (code : Int)
  | errReadingBody
  | errWritingFile
  | errParsingJSON (e : UnmarshalError)
  | errConnecting
  | errStartingTransaction
  | errPreparing
  | zone (item : TrafficData) (time : String)
  | errInserting
  | errCommitting
  | inserted
deriving DecidableEq, Repr

/-- The calls the program makes to the outside, as they appear in the log. -/
inductive Event where
  | loadDotenv
  | newRequest
  | httpDo (req : Request)
  | bodyClose
  | readAll
  | writeFile (name : String) (data : Bytes) (perm : Nat)
  | unmarshal
  | getenv (key : String)
  | sqlOpen (driver : String)
  | dbClose
  | begin
  | prepare (cols : List String)
  | stmtClose
  | exec (args : List SqlValue)
  | rollback
  | commit
  | print (m : Msg)
deriving DecidableEq, Repr

/-- Does the call touch the datastore (connection, transaction, statement)? -/
def Event.isDatastore : Event → Bool
  | .sqlOpen _ => true
  | .dbClose => true
  | .begin => true
  | .prepare _ => true
  | .stmtClose => true
  | .exec _ => true
  | .rollback => true
  | .commit => true
  | _ => false

/-- The outcome of every call whose result the program does not control: which
calls fail, what the server answers, what a failed write leaves in the file, and
what the clock shows at each reading (already formatted with the layout
`2006-01-02 15:04:05`). -/
structure Env where
  dotenv : Bool
  newRequest : Bool
  response : Option Response
  writeFile : Bool
  failedWrite : Option Bytes
  sqlOpen : Bool
  begin : Bool
  prepare : Bool
  exec : Nat → Bool
  commit : Bool
  now : Nat → String

/-- What a run can change, and what it did: the snapshot file
`amapindex.json` (`none`: no such file), the committed rows of
`gz_traffic_index`, the rows executed inside the open transaction (`none`: no
transaction is open), and the log of calls, oldest first. -/
structure State where
  file : Option Bytes
  table : List Row
  tx : Option (List Row)
  log : List Event
deriving DecidableEq, Repr

/-- The state a run starts from: nothing logged, no transaction open. -/
def State.start (file : Option Bytes) (table : List Row) : State :=
  { file := file, table := table, tx := none, log := [] }

/-- Append one call to the log. -/
def State.emit (s : State) (e : Event) : State :=
  { s with log := s.log ++ [e] }

/-- The call `os.WriteFile("amapindex.json", body, 0644)`: the file holds
exactly `body` afterwards when it succeeds. -/
def WriteFile (env : Env) (body : Bytes) (s : State) : State :=
  let s := s.emit (.writeFile "amapindex.json" body 0o644)
  if env.writeFile then { s with file := some body } else { s with file := env.failedWrite }

/-- The call `db.Begin()`: opens a transaction with nothing executed in it. -/
def Begin (env : Env) (s : State) : State :=
  let s := s.emit .begin
  if env.begin then { s with tx := some [] } else s

/-- The call `stmt.Exec(args...)`, the `i`-th of the run: when it succeeds the
row made of the statement's columns and the arguments, in order, is added to
the open transaction. -/
def Exec (env : Env) (i : Nat) (args : List SqlValue) (s : State) : State :=
  let s := s.emit (.exec args)
  if env.exec i then { s with tx := s.tx.map (fun rows => rows ++ [columns.zip args]) } else s

/-- The call `tx.Rollback()`: the transaction ends and its rows are dropped. -/
def Rollback (s : State) : State :=
  { s.emit .rollback with tx := none }

/-- The call `tx.Commit()`: the transaction ends; its rows are appended to the
table when the commit succeeds and dropped when it fails. -/
def Commit (env : Env) (s : State) : State :=
  let s := s.emit .commit
  { s with tx := none, table := if env.commit then s.table ++ s.tx.getD [] else s.table }

/-! ## The program -/

/-- The function `init` (main.go, lines 16-21). -/
def init (env : Env) (s : State) : State :=
  let s := s.emit .loadDotenv
  if env.dotenv then s else s.emit (.print .warnNoDotenv)

/-- The arguments of `stmt.Exec` for one item (main.go, lines 122-129). -/
def execArgs (item : TrafficData) (currentTime : String) : List SqlValue :=
  [.text item.ID, .text item.Name, .int item.Number, .float item.Index, .float item.Speed,
   .text currentTime]

/-- The loop `for _, item := range data` (main.go, lines 117-135), from the
`i`-th iteration on.  The boolean tells whether the loop ran to its end
(`false`: an execution failed, the transaction was rolled back, `main`
returns). -/
def insertLoop (env : Env) : Nat → List TrafficData → State → State × Bool
  | _, [], s => (s, true)
  | i, item :: rest, s =>
    let currentTime := env.now i
    let s := s.emit (.print (.zone item currentTime))
    let s := Exec env i (execArgs item currentTime) s
    if env.exec i then insertLoop env (i + 1) rest s
    else (Rollback (s.emit (.print .errInserting)), false)

/-- The function `main` (main.go, lines 31-145).  The deferred calls
(`resp.Body.Close`, `db.Close`, `stmt.Close`) run when `main` returns, last
deferred first. -/
def main (lib : Lib) (env : Env) (s : State) : State :=
  let s := s.emit .newRequest
  if !env.newRequest then s.emit (.print .errCreatingRequest)
  else
    let s := s.emit (.httpDo request)
    match env.response with
    | none => s.emit (.print .errFetching)
    | some resp =>
      -- defer resp.Body.Close()
      let s :=
        if resp.StatusCode ≠ 200 then s.emit (.print (.errStatus resp.StatusCode))
        else
          let s := s.emit .readAll
          match resp.Body with
          | none => s.emit (.print .errReadingBody)
          | some body =>
            let s := WriteFile env body s
            if !env.writeFile then s.emit (.print .errWritingFile)
            else
              let s := s.emit .unmarshal
              match Unmarshal lib body with
              | (_, some e) => s.emit (.print (.errParsingJSON e))
              | (data, none) =>
                let s := s.emit (.getenv "DB_CONNECTION_STRING")
                let s := s.emit (.sqlOpen "postgres")
                if !env.sqlOpen then s.emit (.print .errConnecting)
                else
                  -- defer db.Close()
                  let s :=
                    let s := Begin env s
                    if !env.begin then s.emit (.print .errStartingTransaction)
                    else
                      let s := s.emit (.prepare columns)
                      if !env.prepare then Rollback (s.emit (.print .errPreparing))
                      else
                        -- defer stmt.Close()
                        let s :=
                          match insertLoop env 0 data s with
                          | (s, false) => s
                          | (s, true) =>
                            let s := Commit env s
                            if !env.commit then s.emit (.print .errCommitting)
                            else s.emit (.print .inserted)
                        s.emit .stmtClose
                  s.emit .dbClose
      s.emit .bodyClose

/-! ## Expected values

The definitions of this section are not part of the program: they name what the
theorems expect to find in the state after a run. -/

/-- Among `n` executions counted from the `i`-th, the offset of the first one
that fails (`none`: none of them fails). -/
def firstFailure (env : Env) : Nat → Nat → Option Nat
  | _, 0 => none
  | i, n + 1 => if env.exec i then (firstFailure env (i + 1) n).map (· + 1) else some 0

/-- The argument lists of the executions of a batch whose first item is handled
at iteration `i`: item `j` with the clock's reading number `i + j`. -/
def argsFrom (env : Env) : Nat → List TrafficData → List (List SqlValue)
  | _, [] => []
  | i, item :: rest => execArgs item (env.now i) :: argsFrom env (i + 1) rest

/-- The log of the iterations over a batch, none of them failing before the
last: the report line, then the execution, per item. -/
def iterLog (env : Env) : Nat → List TrafficData → List Event
  | _, [] => []
  | i, item :: rest =>
    .print (.zone item (env.now i)) :: .exec (execArgs item (env.now i)) :: iterLog env (i + 1) rest

/-- The executions attempted in a log, in order, each as its argument list. -/
def execsOf (log : List Event) : List (List SqlValue) :=
  log.filterMap (fun e => match e with
    | .exec args => some args
    | _ => none)

/-- The log of a run from its start to the decode, for a status-200 response
with body `body` and a successful snapshot write. -/
def fetchLog (body : Bytes) : List Event :=
  [.newRequest, .httpDo request, .readAll, .writeFile "amapindex.json" body 0o644, .unmarshal]

/-- The log from the connection to the prepared statement. -/
def openLog : List Event :=
  [.getenv "DB_CONNECTION_STRING", .sqlOpen "postgres", .begin, .prepare columns]

/-- The run gets as far as a decoded batch: the request is built, the server
answers 200 with body `body`, the body is read and written to the snapshot file,
and `json.Unmarshal` turns it into `data` without an error. -/
structure Decoded (lib : Lib) (env : Env) (body : Bytes) (data : List TrafficData) : Prop where
  request : env.newRequest = true
  response : env.response = some ⟨200, some body⟩
  write : env.writeFile = true
  decode : Unmarshal lib body = (data, none)

/-- The datastore steps before the loop succeed: the connection is opened, the
transaction begun, the insert statement prepared. -/
structure Prepared (env : Env) : Prop where
  sqlOpen : env.sqlOpen = true
  begin : env.begin = true
  prepare : env.prepare = true

/-- The JSON type that fits each field: a string for the two Go strings, a
number for the `int` and the two `float64`. -/
def Field.kind : Field → Kind
  | .id => .string
  | .name => .string
  | .index => .number
  | .number => .number
  | .speed => .number

/-- The content of one field of a record, as a tagged value. -/
def TrafficData.get (r : TrafficData) : Field → SqlValue
  | .id => .text r.ID
  | .index => .float r.Index
  | .name => .text r.Name
  | .number => .int r.Number
  | .speed => .float r.Speed

/-- The record `a` with its field `f` replaced by that of `r`. -/
def TrafficData.assign (f : Field) (r a : TrafficData) : TrafficData :=
  match f with
  | .id => { a with ID := r.ID }
  | .index => { a with Index := r.Index }
  | .name => { a with Name := r.Name }
  | .number => { a with Number := r.Number }
  | .speed => { a with Speed := r.Speed }

/-- The JSON value `v` is of the type of field `f` and denotes the content
that `r` has in that field: the same string; for `number` an integer literal
(no fraction, no exponent) of that value, within int64; for `index` and `speed`
a number literal that `strconv.ParseFloat` converts to that float64. -/
def Carries (lib : Lib) (f : Field) (v : JSON) (r : TrafficData) : Prop :=
  match f with
  | .id => v = .str r.ID
  | .name => v = .str r.Name
  | .index => ∃ n, v = .num n ∧ lib.parseFloat n = some r.Index
  | .speed => ∃ n, v = .num n ∧ lib.parseFloat n = some r.Speed
  | .number => ∃ neg a, v = .num ⟨neg, a, none, none⟩ ∧
      r.Number = (if neg then -(a : Int) else (a : Int)) ∧
      -(2 : Int) ^ 63 ≤ r.Number ∧ r.Number ≤ (2 : Int) ^ 63 - 1

/-- A well-formed record: a JSON object in which each of the five fields is
named by a member, and every member that names a field carries the content
`r` has in it.  The order of the members is free, and so are members that name
no field. -/
def WellFormed (lib : Lib) (v : JSON) (r : TrafficData) : Prop :=
  ∃ ms, v = .obj ms ∧
    (∀ f : Field, ∃ m ∈ ms, fieldOf m.1 = some f) ∧
    (∀ m ∈ ms, ∀ f, fieldOf m.1 = some f → Carries lib f m.2 r)

/-- The saved error is a type error. -/
def IsTypeError (saved : Option UnmarshalError) : Prop :=
  ∃ k, saved = some (.typeError k)

/-! ## Sample inputs -/

/-- ASCII text as bytes. -/
def ascii (s : String) : Bytes := s.toList.map Char.toNat

/-- An integer literal without sign. -/
def lit (a : Nat) : NumLit := ⟨false, a, none, none⟩

/-- The literal `5.5`. -/
def lit5_5 : NumLit := ⟨false, 5, some "5", none⟩

/-- The literal `32.1`. -/
def lit32_1 : NumLit := ⟨false, 32, some "1", none⟩

/-- The float64 5.5. -/
def f5_5 : Float64 := ⟨0x4016000000000000⟩

/-- The float64 nearest to 32.1. -/
def f32_1 : Float64 := ⟨0x40400CCCCCCCCCCD⟩

/-- The object `{"id":…,"index":5.5,"name":…,"number":…,"speed":32.1}`. -/
def recordJSON (id name : String) (number : Nat) : JSON :=
  .obj [("id", .str id), ("index", .num lit5_5), ("name", .str name),
        ("number", .num (lit number)), ("speed", .num lit32_1)]

/-- The body `[]`. -/
def bodyEmpty : Bytes := ascii "[]"

/-- The body of one object without members. -/
def bodyBare : Bytes := ascii "[\x7b\x7d]"

/-- The body of the specification's example scenario. -/
def bodyA1 : Bytes :=
  ascii "[\x7b\"id\":\"A1\",\"index\":5.5,\"name\":\"Zone A\",\"number\":1,\"speed\":32.1\x7d]"

/-- A body of five records. -/
def bodyFive : Bytes :=
  ascii ("[\x7b\"id\":\"A1\",\"index\":5.5,\"name\":\"Zone A\",\"number\":1,\"speed\":32.1\x7d," ++
    "\x7b\"id\":\"A2\",\"index\":5.5,\"name\":\"Zone B\",\"number\":2,\"speed\":32.1\x7d," ++
    "\x7b\"id\":\"A3\",\"index\":5.5,\"name\":\"Zone C\",\"number\":3,\"speed\":32.1\x7d," ++
    "\x7b\"id\":\"A4\",\"index\":5.5,\"name\":\"Zone D\",\"number\":4,\"speed\":32.1\x7d," ++
    "\x7b\"id\":\"A5\",\"index\":5.5,\"name\":\"Zone E\",\"number\":5,\"speed\":32.1\x7d]")

/-- A body whose `id` member is a number. -/
def bodyNumericId : Bytes := ascii "[\x7b\"id\":7\x7d]"

/-- A body cut short: not JSON. -/
def bodyCut : Bytes := ascii "[\x7b\"id\":"

/-- The record of the example scenario. -/
def recA1 : TrafficData := ⟨"A1", f5_5, "Zone A", 1, f32_1⟩

/-- The records of `bodyFive`. -/
def fiveRecords : List TrafficData :=
  [⟨"A1", f5_5, "Zone A", 1, f32_1⟩, ⟨"A2", f5_5, "Zone B", 2, f32_1⟩,
   ⟨"A3", f5_5, "Zone C", 3, f32_1⟩, ⟨"A4", f5_5, "Zone D", 4, f32_1⟩,
   ⟨"A5", f5_5, "Zone E", 5, f32_1⟩]

/-- The library on the sample bodies: the value each of them denotes (every
other body is taken as not JSON), and the float64 of the two literals they
decode as floats. -/
def sampleLib : Lib where
  scan b :=
    if b = bodyEmpty then some (.arr [])
    else if b = bodyBare then some (.arr [.obj []])
    else if b = bodyA1 then some (.arr [recordJSON "A1" "Zone A" 1])
    else if b = bodyFive then
      some (.arr [recordJSON "A1" "Zone A" 1, recordJSON "A2" "Zone B" 2,
        recordJSON "A3" "Zone C" 3, recordJSON "A4" "Zone D" 4, recordJSON "A5" "Zone E" 5])
    else if b = bodyNumericId then some (.arr [.obj [("id", .num (lit 7))]])
    else none
  parseFloat n :=
    if n = lit5_5 then some f5_5
    else if n = lit32_1 then some f32_1
    else none

/-- A clock that shows the same second at every reading. -/
def steadyClock : Nat → String := fun _ => "2024-05-01 08:00:00"

/-- A clock whose second changes after the first reading. -/
def tickingClock : Nat → String :=
  fun i => if i = 0 then "2024-05-01 08:00:00" else "2024-05-01 08:00:01"

/-- The environment in which the server answers 200 with `body` and every call
succeeds. -/
def okEnv (body : Bytes) : Env :=
  { dotenv := true
    newRequest := true
    response := some ⟨200, some body⟩
    writeFile := true
    failedWrite := none
    sqlOpen := true
    begin := true
    prepare := true
    exec := fun _ => true
    commit := true
    now := steadyClock }

/-- A row that is in the table before the run. -/
def oldRow : Row :=
  [("zone_id", .text "Z9"), ("zone_name", .text "Old zone"), ("zone_number", .int 9),
   ("traffic_index", .float f5_5), ("avg_speed", .float f32_1),
   ("record_time", .text "2024-04-30 08:00:00")]

/-- The environment of `bodyFive` in which the execution for the third record
fails. -/
def thirdFailsEnv : Env := { okEnv bodyFive with exec := fun i => i != 2 }

/-- The environment of `bodyA1` in which the commit fails. -/
def commitFailsEnv : Env := { okEnv bodyA1 with commit := false }

/-- The environment of `bodyFive` with the ticking clock. -/
def tickingEnv : Env := { okEnv bodyFive with now := tickingClock }

/-- The environment in which the server answers 500. -/
def status500Env : Env := { okEnv bodyA1 with response := some ⟨500, some bodyA1⟩ }

/-! ## The insert loop -/

theorem firstFailure_none (env : Env) (n i : Nat)
    (h : ∀ j, j < n → env.exec (i + j) = true) : firstFailure env i n = none := by
  induction n generalizing i with
  | zero => rfl
  | succ n ih =>
    have h0 : env.exec i = true := by simpa using h 0 (Nat.succ_pos n)
    have hn : firstFailure env (i + 1) n = none := by
      apply ih
      intro j hj
      have := h (j + 1) (Nat.succ_lt_succ hj)
      simpa [Nat.add_assoc, Nat.add_comm 1 j] using this
    simp [firstFailure, h0, hn]

theorem firstFailure_some (env : Env) (n i k : Nat) (hk : k < n)
    (hfail : env.exec (i + k) = false) (hbefore : ∀ j, j < k → env.exec (i + j) = true) :
    firstFailure env i n = some k := by
  induction n generalizing i k with
  | zero => omega
  | succ n ih =>
    cases k with
    | zero =>
      have h0 : env.exec i = false := by simpa using hfail
      simp [firstFailure, h0]
    | succ k =>
      have h0 : env.exec i = true := by simpa using hbefore 0 (Nat.succ_pos k)
      have hn : firstFailure env (i + 1) n = some k := by
        apply ih (i + 1) k (by omega)
        · simpa [Nat.add_assoc, Nat.add_comm 1 k] using hfail
        · intro j hj
          have := hbefore (j + 1) (Nat.succ_lt_succ hj)
          simpa [Nat.add_assoc, Nat.add_comm 1 j] using this
      simp [firstFailure, h0, hn]

theorem firstFailure_spec (env : Env) (n i k : Nat) (h : firstFailure env i n = some k) :
    k < n ∧ env.exec (i + k) = false ∧ ∀ j, j < k → env.exec (i + j) = true := by
  induction n generalizing i k with
  | zero => simp [firstFailure] at h
  | succ n ih =>
    by_cases h0 : env.exec i = true
    · simp only [firstFailure, h0, if_true, Option.map_eq_some'] at h
      obtain ⟨m, hm, rfl⟩ := h
      obtain ⟨h1, h2, h3⟩ := ih (i + 1) m hm
      refine ⟨by omega, ?_, ?_⟩
      · simpa [Nat.add_assoc, Nat.add_comm 1 m] using h2
      · intro j hj
        cases j with
        | zero => simpa using h0
        | succ j =>
          have := h3 j (by omega)
          simpa [Nat.add_assoc, Nat.add_comm 1 j] using this
    · have h0f : env.exec i = false := by simpa using h0
      simp only [firstFailure, h0f] at h
      have hk : k = 0 := by simpa using h.symm
      subst hk
      exact ⟨Nat.succ_pos n, by simpa using h0f, fun j hj => absurd hj (Nat.not_lt_zero j)⟩

theorem firstFailure_of_failure (env : Env) (n i k : Nat) (hk : k < n)
    (hfail : env.exec (i + k) = false) : ∃ m, m ≤ k ∧ firstFailure env i n = some m := by
  cases hf : firstFailure env i n with
  | some m =>
    refine ⟨m, ?_, rfl⟩
    obtain ⟨_, _, h3⟩ := firstFailure_spec env n i m hf
    by_contra hlt
    have := h3 k (by omega)
    simp [hfail] at this
  | none =>
    exfalso
    induction n generalizing i k with
    | zero => omega
    | succ n ih =>
      by_cases h0 : env.exec i = true
      · simp only [firstFailure, h0, if_true, Option.map_eq_none'] at hf
        cases k with
        | zero => simp [h0] at hfail
        | succ k =>
          exact ih (i + 1) k (by omega)
            (by simpa [Nat.add_assoc, Nat.add_comm 1 k] using hfail) hf
      · have h0f : env.exec i = false := by simpa using h0
        simp [firstFailure, h0f] at hf

/-- The loop, in closed form: it runs to its end when no execution fails, and
otherwise stops at the first failing one, reports it and rolls back. -/
theorem insertLoop_eq (env : Env) (data : List TrafficData) (i : Nat) (s : State) :
    insertLoop env i data s =
      match firstFailure env i data.length with
      | none =>
        ({ s with tx := s.tx.map (fun rows => rows ++ (argsFrom env i data).map (fun a => columns.zip a)),
                  log := s.log ++ iterLog env i data }, true)
      | some k =>
        ({ s with tx := none,
                  log := s.log ++ iterLog env i (data.take (k + 1)) ++
                    [.print .errInserting, .rollback] }, false) := by
  induction data generalizing i s with
  | nil =>
    cases s with
    | mk file table tx log => cases tx <;> simp [insertLoop, firstFailure, argsFrom, iterLog]
  | cons item rest ih =>
    by_cases h0 : env.exec i = true
    · simp only [insertLoop, h0, if_true, List.length_cons, firstFailure]
      rw [ih]
      cases hf : firstFailure env (i + 1) rest.length with
      | none =>
        cases s with
        | mk file table tx log =>
          cases tx <;> simp [Exec, State.emit, h0, argsFrom, iterLog]
      | some k =>
        simp [Exec, State.emit, h0, iterLog]
    · have h0f : env.exec i = false := by simpa using h0
      simp [insertLoop, h0f, firstFailure, Exec, State.emit, Rollback, iterLog]

/-! ## The run, in closed form -/

/-- A run that reaches the loop: what it leaves, by the first failing
execution. -/
theorem main_loaded (lib : Lib) (env : Env) (file : Option Bytes) (table : List Row)
    (body : Bytes) (data : List TrafficData)
    (hd : Decoded lib env body data) (hp : Prepared env) :
    main lib env (State.start file table) =
      match firstFailure env 0 data.length with
      | none =>
        { file := some body
          table := if env.commit then table ++ (argsFrom env 0 data).map (fun a => columns.zip a)
                   else table
          tx := none
          log := fetchLog body ++ openLog ++ iterLog env 0 data ++
            [.commit, .print (if env.commit then .inserted else .errCommitting),
             .stmtClose, .dbClose, .bodyClose] }
      | some k =>
        { file := some body
          table := table
          tx := none
          log := fetchLog body ++ openLog ++ iterLog env 0 (data.take (k + 1)) ++
            [.print .errInserting, .rollback, .stmtClose, .dbClose, .bodyClose] } := by
  obtain ⟨h1, h2, h3, h4⟩ := hd
  obtain ⟨h5, h6, h7⟩ := hp
  simp only [main, h1, h2, h3, h4, h5, h6, h7, insertLoop_eq]
  cases hf : firstFailure env 0 data.length with
  | none =>
    cases hc : env.commit <;>
      simp [State.start, State.emit, WriteFile, Begin, Commit, h3, h6, hc, fetchLog, openLog]
  | some k =>
    simp [State.start, State.emit, WriteFile, Begin, h3, h6, fetchLog, openLog]

/-- A run whose decode fails: the snapshot holds the body, the error is
reported, nothing else happens. -/
theorem main_decode_error (lib : Lib) (env : Env) (file : Option Bytes) (table : List Row)
    (body : Bytes) (e : UnmarshalError)
    (hreq : env.newRequest = true) (hresp : env.response = some ⟨200, some body⟩)
    (hwrite : env.writeFile = true) (hdec : (Unmarshal lib body).2 = some e) :
    main lib env (State.start file table) =
      { file := some body
        table := table
        tx := none
        log := fetchLog body ++ [.print (.errParsingJSON e), .bodyClose] } := by
  rcases hu : Unmarshal lib body with ⟨data, err⟩
  rw [hu] at hdec
  simp only at hdec
  subst hdec
  simp [main, hreq, hresp, hwrite, hu, State.start, State.emit, WriteFile, fetchLog]

/-! ## The decoder -/

theorem TrafficData.ext_get (a r : TrafficData) (h : ∀ f, a.get f = r.get f) : a = r := by
  have h1 := h .id
  have h2 := h .index
  have h3 := h .name
  have h4 := h .number
  have h5 := h .speed
  cases a
  cases r
  simp only [TrafficData.get, SqlValue.text.injEq, SqlValue.float.injEq, SqlValue.int.injEq]
    at h1 h2 h3 h4 h5
  simp [h1, h2, h3, h4, h5]

theorem TrafficData.get_assign (f g : Field) (r a : TrafficData) :
    (TrafficData.assign f r a).get g = if g = f then r.get g else a.get g := by
  cases f <;> cases g <;> simp [TrafficData.assign, TrafficData.get]

theorem store_of_carries (lib : Lib) (f : Field) (v : JSON) (r a : TrafficData)
    (h : Carries lib f v r) : store lib f v a = .ok (TrafficData.assign f r a) := by
  cases f with
  | id => simp only [Carries] at h; subst h; rfl
  | name => simp only [Carries] at h; subst h; rfl
  | index =>
    obtain ⟨n, rfl, hn⟩ := h
    simp [store, hn, TrafficData.assign]
  | speed =>
    obtain ⟨n, rfl, hn⟩ := h
    simp [store, hn, TrafficData.assign]
  | number =>
    obtain ⟨neg, a0, rfl, hv, hlo, hhi⟩ := h
    have hp : parseInt ⟨neg, a0, none, none⟩ = some r.Number := by
      simp only [parseInt, Option.isSome_none, Bool.false_eq_true, or_self, if_false]
      rw [← hv]
      exact if_pos ⟨hlo, hhi⟩
    simp [store, hp, TrafficData.assign]

/-- Decoding the members of a well-formed record: no error is added, and every
field named so far holds the content of the record. -/
theorem object_of_carries (lib : Lib) (r : TrafficData) (saved : Option UnmarshalError)
    (ms : List (String × JSON)) (a : TrafficData) (S : Field → Prop)
    (hms : ∀ m ∈ ms, ∀ f, fieldOf m.1 = some f → Carries lib f m.2 r)
    (ha : ∀ f, S f → a.get f = r.get f) :
    (object lib ms (a, saved)).2 = saved ∧
      ∀ f, (S f ∨ ∃ m ∈ ms, fieldOf m.1 = some f) → (object lib ms (a, saved)).1.get f = r.get f := by
  induction ms generalizing a S with
  | nil =>
    refine ⟨rfl, ?_⟩
    intro f hf
    rcases hf with hf | ⟨m, hm, _⟩
    · exact ha f hf
    · simp at hm
  | cons m ms ih =>
    have htail : ∀ m0 ∈ ms, ∀ f, fieldOf m0.1 = some f → Carries lib f m0.2 r :=
      fun m0 hm0 => hms m0 (List.mem_cons_of_mem m hm0)
    cases hfm : fieldOf m.1 with
    | none =>
      have hstep : member lib (a, saved) m = (a, saved) := by simp [member, hfm]
      have := ih a S htail ha
      simp only [object, List.foldl_cons, hstep] at this ⊢
      refine ⟨this.1, ?_⟩
      intro f hf
      apply this.2 f
      rcases hf with hf | ⟨m0, hm0, hf0⟩
      · exact Or.inl hf
      · rcases List.mem_cons.1 hm0 with rfl | hm0
        · rw [hfm] at hf0; cases hf0
        · exact Or.inr ⟨m0, hm0, hf0⟩
    | some g =>
      have hstep : member lib (a, saved) m = (TrafficData.assign g r a, saved) := by
        simp [member, hfm, store_of_carries lib g m.2 r a (hms m (List.mem_cons_self m ms) g hfm)]
      have ha2 : ∀ f, (S f ∨ f = g) → (TrafficData.assign g r a).get f = r.get f := by
        intro f hf
        rw [TrafficData.get_assign]
        by_cases hfg : f = g
        · simp [hfg]
        · rcases hf with hf | hf
          · simp [hfg, ha f hf]
          · exact absurd hf hfg
      have := ih (TrafficData.assign g r a) (fun f => S f ∨ f = g) htail ha2
      simp only [object, List.foldl_cons, hstep] at this ⊢
      refine ⟨this.1, ?_⟩
      intro f hf
      apply this.2 f
      rcases hf with hf | ⟨m0, hm0, hf0⟩
      · exact Or.inl (Or.inl hf)
      · rcases List.mem_cons.1 hm0 with rfl | hm0
        · rw [hfm] at hf0
          exact Or.inl (Or.inr (Option.some.inj hf0).symm)
        · exact Or.inr ⟨m0, hm0, hf0⟩

theorem element_of_wellFormed (lib : Lib) (v : JSON) (r : TrafficData)
    (saved : Option UnmarshalError) (h : WellFormed lib v r) :
    element lib v saved = (r, saved) := by
  obtain ⟨ms, rfl, hall, hms⟩ := h
  have := object_of_carries lib r saved ms TrafficData.zero (fun _ => False) hms
    (fun f hf => absurd hf id)
  have h1 : (object lib ms (TrafficData.zero, saved)).1 = r :=
    TrafficData.ext_get _ _ (fun f => this.2 f (Or.inr (hall f)))
  simp only [element]
  exact Prod.ext h1 this.1

theorem array_of_wellFormed (lib : Lib) (vs : List JSON) (recs : List TrafficData)
    (saved : Option UnmarshalError) (h : List.Forall₂ (WellFormed lib) vs recs) :
    array lib vs saved = (recs, saved) := by
  induction h with
  | nil => rfl
  | cons hv _ ih => simp [array, element_of_wellFormed lib _ _ saved hv, ih]

theorem saveError_typeError (k : Kind) (saved : Option UnmarshalError)
    (h : saved = none ∨ IsTypeError saved) : IsTypeError (saveError (.typeError k) saved) := by
  rcases h with rfl | ⟨k0, rfl⟩
  · exact ⟨k, rfl⟩
  · exact ⟨k0, rfl⟩

theorem store_error (lib : Lib) (f : Field) (v : JSON) (a : TrafficData) (e : UnmarshalError)
    (h : store lib f v a = .error e) : ∃ k, e = .typeError k := by
  cases v with
  | null => simp [store] at h
  | bool b => exact ⟨.bool, by simpa [store] using h.symm⟩
  | arr vs => exact ⟨.array, by simpa [store] using h.symm⟩
  | obj ms => exact ⟨.object, by simpa [store] using h.symm⟩
  | str x =>
    cases f <;> simp only [store] at h <;> first
      | exact ⟨.string, (Except.error.inj h).symm⟩
      | cases h
  | num n =>
    cases f <;> simp only [store] at h
    · exact ⟨.number, (Except.error.inj h).symm⟩
    · split at h
      · cases h
      · exact ⟨.number, (Except.error.inj h).symm⟩
    · exact ⟨.number, (Except.error.inj h).symm⟩
    · split at h
      · cases h
      · exact ⟨.number, (Except.error.inj h).symm⟩
    · split at h
      · cases h
      · exact ⟨.number, (Except.error.inj h).symm⟩

theorem store_mismatch (lib : Lib) (f : Field) (v : JSON) (a : TrafficData)
    (hnull : v.kind ≠ .null) (hkind : v.kind ≠ f.kind) :
    ∃ k, store lib f v a = .error (.typeError k) := by
  cases v with
  | null => exact absurd rfl hnull
  | bool b => exact ⟨.bool, rfl⟩
  | arr vs => exact ⟨.array, rfl⟩
  | obj ms => exact ⟨.object, rfl⟩
  | str x =>
    cases f
    · exact absurd rfl hkind
    · exact ⟨.string, rfl⟩
    · exact absurd rfl hkind
    · exact ⟨.string, rfl⟩
    · exact ⟨.string, rfl⟩
  | num n =>
    cases f
    · exact ⟨.number, rfl⟩
    · exact absurd rfl hkind
    · exact ⟨.number, rfl⟩
    · exact absurd rfl hkind
    · exact absurd rfl hkind

theorem member_typeError (lib : Lib) (st : TrafficData × Option UnmarshalError)
    (m : String × JSON) :
    (IsTypeError st.2 → IsTypeError (member lib st m).2) ∧
    (st.2 = none ∨ IsTypeError st.2 →
      (member lib st m).2 = none ∨ IsTypeError (member lib st m).2) := by
  cases hf : fieldOf m.1 with
  | none =>
    simp only [member, hf]
    exact ⟨id, id⟩
  | some f =>
    cases hs : store lib f m.2 st.1 with
    | ok r =>
      simp only [member, hf, hs]
      exact ⟨id, id⟩
    | error e =>
      obtain ⟨k, rfl⟩ := store_error lib f m.2 st.1 e hs
      simp only [member, hf, hs]
      exact ⟨fun h => saveError_typeError k st.2 (Or.inr h),
        fun h => Or.inr (saveError_typeError k st.2 h)⟩

theorem member_mismatch (lib : Lib) (st : TrafficData × Option UnmarshalError)
    (key : String) (v : JSON) (f : Field) (hst : st.2 = none ∨ IsTypeError st.2)
    (hfield : fieldOf key = some f) (hnull : v.kind ≠ .null) (hkind : v.kind ≠ f.kind) :
    IsTypeError (member lib st (key, v)).2 := by
  obtain ⟨k, hk⟩ := store_mismatch lib f v st.1 hnull hkind
  simp only [member, hfield, hk]
  exact saveError_typeError k st.2 hst

theorem object_typeError (lib : Lib) (ms : List (String × JSON))
    (st : TrafficData × Option UnmarshalError) :
    (IsTypeError st.2 → IsTypeError (object lib ms st).2) ∧
    (st.2 = none ∨ IsTypeError st.2 →
      (object lib ms st).2 = none ∨ IsTypeError (object lib ms st).2) := by
  induction ms generalizing st with
  | nil => exact ⟨id, id⟩
  | cons m ms ih =>
    have hm := member_typeError lib st m
    have hr := ih (member lib st m)
    simp only [object, List.foldl_cons] at hr ⊢
    exact ⟨fun h => hr.1 (hm.1 h), fun h => hr.2 (hm.2 h)⟩

theorem object_mismatch (lib : Lib) (ms : List (String × JSON))
    (st : TrafficData × Option UnmarshalError) (key : String) (v : JSON) (f : Field)
    (hst : st.2 = none ∨ IsTypeError st.2) (hmem : (key, v) ∈ ms)
    (hfield : fieldOf key = some f) (hnull : v.kind ≠ .null) (hkind : v.kind ≠ f.kind) :
    IsTypeError (object lib ms st).2 := by
  induction ms generalizing st with
  | nil => simp at hmem
  | cons m ms ih =>
    simp only [object, List.foldl_cons]
    rcases List.mem_cons.1 hmem with rfl | hmem
    · exact (object_typeError lib ms _).1
        (member_mismatch lib st key v f hst hfield hnull hkind)
    · exact ih (member lib st m) ((member_typeError lib st m).2 hst) hmem

theorem element_typeError (lib : Lib) (v : JSON) (saved : Option UnmarshalError) :
    (IsTypeError saved → IsTypeError (element lib v saved).2) ∧
    (saved = none ∨ IsTypeError saved →
      (element lib v saved).2 = none ∨ IsTypeError (element lib v saved).2) := by
  cases v with
  | null => exact ⟨id, id⟩
  | obj ms => exact object_typeError lib ms (TrafficData.zero, saved)
  | bool b =>
    exact ⟨fun h => saveError_typeError _ saved (Or.inr h),
      fun h => Or.inr (saveError_typeError _ saved h)⟩
  | num n =>
    exact ⟨fun h => saveError_typeError _ saved (Or.inr h),
      fun h => Or.inr (saveError_typeError _ saved h)⟩
  | str x =>
    exact ⟨fun h => saveError_typeError _ saved (Or.inr h),
      fun h => Or.inr (saveError_typeError _ saved h)⟩
  | arr vs =>
    exact ⟨fun h => saveError_typeError _ saved (Or.inr h),
      fun h => Or.inr (saveError_typeError _ saved h)⟩

theorem array_typeError (lib : Lib) (vs : List JSON) (saved : Option UnmarshalError)
    (h : IsTypeError saved) : IsTypeError (array lib vs saved).2 := by
  induction vs generalizing saved with
  | nil => exact h
  | cons v vs ih => exact ih _ ((element_typeError lib v saved).1 h)

/-- An array with an object in which a member names a field and holds a
non-null value of another JSON type than the field's: the decoder returns a
type error. -/
theorem array_mismatch (lib : Lib) (vs : List JSON) (saved : Option UnmarshalError)
    (ms : List (String × JSON)) (key : String) (v : JSON) (f : Field)
    (hsaved : saved = none ∨ IsTypeError saved) (hobj : JSON.obj ms ∈ vs)
    (hmem : (key, v) ∈ ms) (hfield : fieldOf key = some f)
    (hnull : v.kind ≠ .null) (hkind : v.kind ≠ f.kind) :
    IsTypeError (array lib vs saved).2 := by
  induction vs generalizing saved with
  | nil => simp at hobj
  | cons v0 vs ih =>
    rcases List.mem_cons.1 hobj with h0 | hobj
    · subst h0
      exact array_typeError lib vs _
        (object_mismatch lib ms (TrafficData.zero, saved) key v f hsaved hmem hfield hnull hkind)
    · exact ih _ ((element_typeError lib v0 saved).2 hsaved) hobj

/-- A run whose snapshot write fails: the error is reported and nothing is
decoded or loaded. -/
theorem main_write_error (lib : Lib) (env : Env) (file : Option Bytes) (table : List Row)
    (body : Bytes) (hreq : env.newRequest = true)
    (hresp : env.response = some ⟨200, some body⟩) (hwrite : env.writeFile = false) :
    main lib env (State.start file table) =
      { file := env.failedWrite
        table := table
        tx := none
        log := [.newRequest, .httpDo request, .readAll, .writeFile "amapindex.json" body 0o644,
          .print .errWritingFile, .bodyClose] } := by
  simp [main, hreq, hresp, hwrite, State.start, State.emit, WriteFile]

/-! ## The log of the loop -/

theorem argsFrom_eq_zipWith (env : Env) (data : List TrafficData) (i : Nat) :
    argsFrom env i data =
      List.zipWith (fun item j => execArgs item (env.now j)) data (List.range' i data.length) := by
  induction data generalizing i with
  | nil => rfl
  | cons item rest ih => simp [argsFrom, List.range'_succ, ih]

theorem argsFrom_length (env : Env) (data : List TrafficData) (i : Nat) :
    (argsFrom env i data).length = data.length := by
  induction data generalizing i with
  | nil => rfl
  | cons item rest ih => simp [argsFrom, ih]

theorem argsFrom_take (env : Env) (data : List TrafficData) (i n : Nat) :
    argsFrom env i (data.take n) = (argsFrom env i data).take n := by
  induction data generalizing i n with
  | nil => simp [argsFrom]
  | cons item rest ih =>
    cases n with
    | zero => simp [argsFrom]
    | succ n => simp [argsFrom, ih]

theorem argsFrom_getElem? (env : Env) (data : List TrafficData) (i j : Nat)
    (args : List SqlValue) (h : (argsFrom env i data)[j]? = some args) :
    ∃ item, data[j]? = some item ∧ args = execArgs item (env.now (i + j)) := by
  induction data generalizing i j with
  | nil => simp [argsFrom] at h
  | cons item rest ih =>
    cases j with
    | zero =>
      simp only [argsFrom, List.getElem?_cons_zero, Option.some.injEq] at h
      exact ⟨item, by simp, h.symm⟩
    | succ j =>
      simp only [argsFrom, List.getElem?_cons_succ] at h
      obtain ⟨it, h1, h2⟩ := ih (i + 1) j h
      refine ⟨it, by simpa using h1, ?_⟩
      rw [h2]
      congr 2
      omega

theorem rows_eq_zipWith (env : Env) (data : List TrafficData) (i : Nat) :
    (argsFrom env i data).map (fun a => columns.zip a) =
      List.zipWith (fun item j =>
        [("zone_id", SqlValue.text item.ID), ("zone_name", SqlValue.text item.Name),
         ("zone_number", SqlValue.int item.Number), ("traffic_index", SqlValue.float item.Index),
         ("avg_speed", SqlValue.float item.Speed), ("record_time", SqlValue.text (env.now j))])
        data (List.range' i data.length) := by
  induction data generalizing i with
  | nil => rfl
  | cons item rest ih =>
    simp only [argsFrom, List.map_cons, List.length_cons, List.range'_succ, List.zipWith_cons_cons,
      ih]
    rfl

theorem execsOf_append (l1 l2 : List Event) : execsOf (l1 ++ l2) = execsOf l1 ++ execsOf l2 := by
  simp [execsOf, List.filterMap_append]

theorem execsOf_iterLog (env : Env) (data : List TrafficData) (i : Nat) :
    execsOf (iterLog env i data) = argsFrom env i data := by
  induction data generalizing i with
  | nil => rfl
  | cons item rest ih =>
    have := ih (i + 1)
    simp only [execsOf] at this
    simp [execsOf, iterLog, argsFrom, this]

theorem mem_iterLog (env : Env) (data : List TrafficData) (i : Nat) (e : Event)
    (h : e ∈ iterLog env i data) :
    (∃ item t, e = .print (.zone item t)) ∨ ∃ args, e = .exec args := by
  induction data generalizing i with
  | nil => simp [iterLog] at h
  | cons item rest ih =>
    simp only [iterLog, List.mem_cons] at h
    rcases h with rfl | rfl | h
    · exact Or.inl ⟨_, _, rfl⟩
    · exact Or.inr ⟨_, rfl⟩
    · exact ih (i + 1) h

theorem rollback_not_mem_iterLog (env : Env) (data : List TrafficData) (i : Nat) :
    Event.rollback ∉ iterLog env i data := by
  intro h
  rcases mem_iterLog env data i _ h with ⟨_, _, h⟩ | ⟨_, h⟩ <;> cases h

theorem commit_not_mem_iterLog (env : Env) (data : List TrafficData) (i : Nat) :
    Event.commit ∉ iterLog env i data := by
  intro h
  rcases mem_iterLog env data i _ h with ⟨_, _, h⟩ | ⟨_, h⟩ <;> cases h

theorem prepare_not_mem_iterLog (env : Env) (data : List TrafficData) (i : Nat)
    (cols : List String) : Event.prepare cols ∉ iterLog env i data := by
  intro h
  rcases mem_iterLog env data i _ h with ⟨_, _, h⟩ | ⟨_, h⟩ <;> cases h

/-- A run whose statement preparation fails: the transaction is rolled back and
the connection closed. -/
theorem main_prepare_error (lib : Lib) (env : Env) (file : Option Bytes) (table : List Row)
    (body : Bytes) (data : List TrafficData) (hd : Decoded lib env body data)
    (hopen : env.sqlOpen = true) (hbegin : env.begin = true) (hprep : env.prepare = false) :
    main lib env (State.start file table) =
      { file := some body
        table := table
        tx := none
        log := fetchLog body ++ [.getenv "DB_CONNECTION_STRING", .sqlOpen "postgres", .begin,
          .prepare columns, .print .errPreparing, .rollback, .dbClose, .bodyClose] } := by
  obtain ⟨h1, h2, h3, h4⟩ := hd
  simp [main, h1, h2, h3, h4, hopen, hbegin, hprep, State.start, State.emit, WriteFile, Begin,
    Rollback, fetchLog]

/-- Every run either reaches the loop with a decoded batch, or executes no
insert and leaves the table as it was. -/
theorem main_cases (lib : Lib) (env : Env) (file : Option Bytes) (table : List Row) :
    (∃ body data, Decoded lib env body data ∧ Prepared env) ∨
    (execsOf (main lib env (State.start file table)).log = [] ∧
      (main lib env (State.start file table)).table = table) := by
  by_cases h1 : env.newRequest = true
  swap
  · right
    simp [main, h1, State.start, State.emit, execsOf]
  cases h2 : env.response with
  | none =>
    right
    simp [main, h1, h2, State.start, State.emit, execsOf]
  | some resp =>
    obtain ⟨code, rbody⟩ := resp
    by_cases hc : code = 200
    swap
    · right
      simp [main, h1, h2, hc, State.start, State.emit, execsOf]
    subst hc
    cases rbody with
    | none =>
      right
      simp [main, h1, h2, State.start, State.emit, execsOf]
    | some body =>
      by_cases h3 : env.writeFile = true
      swap
      · right
        simp [main, h1, h2, h3, State.start, State.emit, WriteFile, execsOf]
      rcases hu : Unmarshal lib body with ⟨data, err⟩
      cases err with
      | some e =>
        right
        simp [main, h1, h2, h3, hu, State.start, State.emit, WriteFile, execsOf]
      | none =>
        by_cases h5 : env.sqlOpen = true
        swap
        · right
          simp [main, h1, h2, h3, hu, h5, State.start, State.emit, WriteFile, execsOf]
        by_cases h6 : env.begin = true
        swap
        · right
          simp [main, h1, h2, h3, hu, h5, h6, State.start, State.emit, WriteFile, Begin, execsOf]
        by_cases h7 : env.prepare = true
        swap
        · right
          simp [main, h1, h2, h3, hu, h5, h6, h7, State.start, State.emit, WriteFile, Begin,
            Rollback, execsOf]
        exact Or.inl ⟨body, data, ⟨h1, h2, h3, hu⟩, ⟨h5, h6, h7⟩⟩

/-- The executions of a run that reaches the loop are those of an initial part
of the batch. -/
theorem execsOf_main (lib : Lib) (env : Env) (file : Option Bytes) (table : List Row)
    (body : Bytes) (data : List TrafficData)
    (hd : Decoded lib env body data) (hp : Prepared env) :
    ∃ n, n ≤ data.length ∧
      execsOf (main lib env (State.start file table)).log = argsFrom env 0 (data.take n) := by
  rw [main_loaded lib env file table body data hd hp]
  cases hf : firstFailure env 0 data.length with
  | none =>
    refine ⟨data.length, Nat.le_refl _, ?_⟩
    simp only [execsOf_append, execsOf_iterLog, List.take_length]
    simp [execsOf, fetchLog, openLog]
  | some k =>
    obtain ⟨hk, _, _⟩ := firstFailure_spec env data.length 0 k hf
    refine ⟨k + 1, hk, ?_⟩
    simp only [execsOf_append, execsOf_iterLog]
    simp [execsOf, fetchLog, openLog]

/-- Under a clock that shows `t` at every reading of the run, every execution
binds `t` to `record_time` and every committed row carries it. -/
theorem steady_clock_shares (lib : Lib) (env : Env) (file : Option Bytes)
    (table : List Row) (t : String)
    (hclock : ∀ j, j < (execsOf (main lib env (State.start file table)).log).length →
      env.now j = t) :
    (∀ args ∈ execsOf (main lib env (State.start file table)).log,
      args[5]? = some (.text t)) ∧
    ∃ rows, (main lib env (State.start file table)).table = table ++ rows ∧
      ∀ row ∈ rows, row.lookup "record_time" = some (.text t) := by
  rcases main_cases lib env file table with ⟨body, data, hd, hp⟩ | ⟨h1, h2⟩
  · have key : ∀ n, n ≤ data.length → (∀ j, j < n → env.now j = t) →
        ∀ args ∈ argsFrom env 0 (data.take n), args = args.take 5 ++ [.text t] ∧
          args.length = 6 := by
      intro n _ hn args hargs
      obtain ⟨j, hget⟩ := List.mem_iff_getElem?.1 hargs
      obtain ⟨item, hitem, rfl⟩ := argsFrom_getElem? env (data.take n) 0 j args hget
      have hjn : j < n := by
        by_contra hc
        have hnone : (data.take n)[j]? = none := by
          apply List.getElem?_eq_none
          simp only [List.length_take]
          omega
        simp [hnone] at hitem
      have := hn j hjn
      simp only [Nat.zero_add] at this ⊢
      simp [execArgs, this]
    rw [main_loaded lib env file table body data hd hp] at hclock ⊢
    cases hf : firstFailure env 0 data.length with
    | none =>
      simp only [hf, execsOf_append, execsOf_iterLog] at hclock ⊢
      have hlen : ∀ j, j < data.length → env.now j = t := by
        intro j hj
        apply hclock
        simp [argsFrom_length]
        omega
      have hall := key data.length (Nat.le_refl _) hlen
      rw [List.take_length] at hall
      constructor
      · intro args hargs
        simp only [fetchLog, openLog, execsOf, List.filterMap_cons, List.filterMap_nil,
          List.nil_append, List.append_nil] at hargs
        have hargs2 : args ∈ argsFrom env 0 data := by simpa [execsOf] using hargs
        obtain ⟨h1, h2⟩ := hall args hargs2
        rw [h1]
        simp [h2]
      · cases hc : env.commit with
        | false => exact ⟨[], by simp, by simp⟩
        | true =>
          refine ⟨(argsFrom env 0 data).map (fun a => columns.zip a), by simp, ?_⟩
          intro row hrow
          obtain ⟨args, hargs, rfl⟩ := List.mem_map.1 hrow
          obtain ⟨h1, h2⟩ := hall args hargs
          match args, h2, h1 with
          | [a1, a2, a3, a4, a5, a6], _, h1 =>
            simp at h1
            subst h1
            simp [columns, List.lookup]
    | some k =>
      obtain ⟨hk, _, _⟩ := firstFailure_spec env data.length 0 k hf
      simp only [hf, execsOf_append, execsOf_iterLog] at hclock ⊢
      have hlen : ∀ j, j < k + 1 → env.now j = t := by
        intro j hj
        apply hclock
        simp [argsFrom_length]
        omega
      have hall := key (k + 1) (by omega) hlen
      constructor
      · intro args hargs
        simp only [fetchLog, openLog, execsOf, List.filterMap_cons, List.filterMap_nil,
          List.nil_append, List.append_nil] at hargs
        have hargs2 : args ∈ argsFrom env 0 (data.take (k + 1)) := by
          simpa [execsOf] using hargs
        obtain ⟨h1, h2⟩ := hall args hargs2
        rw [h1]
        simp [h2]
      · exact ⟨[], by simp, by simp⟩
  · rw [h1, h2]
    exact ⟨by simp, [], by simp, by simp⟩

/-! ## The sample bodies -/

theorem unmarshal_bodyFive : Unmarshal sampleLib bodyFive = (fiveRecords, none) := by decide

theorem unmarshal_bodyA1 : Unmarshal sampleLib bodyA1 = ([recA1], none) := by decide

theorem unmarshal_bodyEmpty : Unmarshal sampleLib bodyEmpty = ([], none) := by decide

/-! ## The Loader -/

/-- C1 (batch atomicity).  In every run that has decoded a batch and prepared
the insert statement, if the execution for some record `k` of the batch fails,
the run rolls the transaction back (once), never calls commit, ends with no
transaction open, and the table is what it was before the run: no row of the
batch is committed. -/
theorem exec_failure_commits_nothing (lib : Lib) (env : Env) (file : Option Bytes)
    (table : List Row) (body : Bytes) (data : List TrafficData)
    (hd : Decoded lib env body data) (hp : Prepared env)
    (k : Nat) (hk : k < data.length) (hfail : env.exec k = false) :
    (main lib env (State.start file table)).table = table ∧
    (main lib env (State.start file table)).tx = none ∧
    (main lib env (State.start file table)).log.count .rollback = 1 ∧
    Event.commit ∉ (main lib env (State.start file table)).log := by
  obtain ⟨m, _, hm⟩ := firstFailure_of_failure env data.length 0 k hk (by simpa using hfail)
  rw [main_loaded lib env file table body data hd hp, hm]
  refine ⟨rfl, rfl, ?_, ?_⟩
  · simp [List.count_append, fetchLog, openLog,
      List.count_eq_zero_of_not_mem (rollback_not_mem_iterLog env (data.take (m + 1)) 0)]
  · simp [fetchLog, openLog, commit_not_mem_iterLog]

/-- C1 at five records with the failure on the third: the table still holds
its one old row. -/
theorem exec_failure_commits_nothing_witness :
    Decoded sampleLib thirdFailsEnv bodyFive fiveRecords ∧ Prepared thirdFailsEnv ∧
    2 < fiveRecords.length ∧ thirdFailsEnv.exec 2 = false ∧
    (main sampleLib thirdFailsEnv (State.start none [oldRow])).table = [oldRow] ∧
    (main sampleLib thirdFailsEnv (State.start none [oldRow])).tx = none ∧
    (main sampleLib thirdFailsEnv (State.start none [oldRow])).log.count .rollback = 1 ∧
    Event.commit ∉ (main sampleLib thirdFailsEnv (State.start none [oldRow])).log :=
  ⟨⟨rfl, rfl, rfl, unmarshal_bodyFive⟩, ⟨rfl, rfl, rfl⟩, by decide, rfl,
    exec_failure_commits_nothing sampleLib thirdFailsEnv none [oldRow] bodyFive fiveRecords
      ⟨rfl, rfl, rfl, unmarshal_bodyFive⟩ ⟨rfl, rfl, rfl⟩ 2 (by decide) rfl⟩

/-- C2 (success postcondition).  In every run that has decoded a batch of N
records (N may be 0) and in which the connection, the begin, the prepare, every
execution and the commit succeed, the table after the run is the table before
it followed by exactly N new rows, in decoded order, the row of record `i`
holding its id in `zone_id`, its name in `zone_name`, its number in
`zone_number`, its index in `traffic_index`, its speed in `avg_speed`, all
unchanged, and the clock reading of its iteration in `record_time`. -/
theorem success_appends_rows (lib : Lib) (env : Env) (file : Option Bytes)
    (table : List Row) (body : Bytes) (data : List TrafficData)
    (hd : Decoded lib env body data) (hp : Prepared env)
    (hexec : ∀ i, i < data.length → env.exec i = true) (hcommit : env.commit = true) :
    (main lib env (State.start file table)).table =
      table ++ List.zipWith (fun item i =>
        [("zone_id", SqlValue.text item.ID), ("zone_name", SqlValue.text item.Name),
         ("zone_number", SqlValue.int item.Number), ("traffic_index", SqlValue.float item.Index),
         ("avg_speed", SqlValue.float item.Speed), ("record_time", SqlValue.text (env.now i))])
        data (List.range data.length) := by
  have hf : firstFailure env 0 data.length = none :=
    firstFailure_none env data.length 0 (fun j hj => by simpa using hexec j hj)
  rw [main_loaded lib env file table body data hd hp, hf]
  simp only [hcommit, if_true, rows_eq_zipWith, List.range_eq_range']

/-- C2 at the example scenario: the table gains exactly the row
`("A1", "Zone A", 1, 5.5, 32.1, <reading of the clock>)`. -/
theorem success_appends_rows_witness :
    Decoded sampleLib (okEnv bodyA1) bodyA1 [recA1] ∧ Prepared (okEnv bodyA1) ∧
    (∀ i, i < [recA1].length → (okEnv bodyA1).exec i = true) ∧ (okEnv bodyA1).commit = true ∧
    (main sampleLib (okEnv bodyA1) (State.start none [oldRow])).table =
      [oldRow,
       [("zone_id", .text "A1"), ("zone_name", .text "Zone A"), ("zone_number", .int 1),
        ("traffic_index", .float f5_5), ("avg_speed", .float f32_1),
        ("record_time", .text "2024-05-01 08:00:00")]] :=
  ⟨⟨rfl, rfl, rfl, unmarshal_bodyA1⟩, ⟨rfl, rfl, rfl⟩, fun _ _ => rfl, rfl,
    success_appends_rows sampleLib (okEnv bodyA1) none [oldRow] bodyA1 [recA1]
      ⟨rfl, rfl, rfl, unmarshal_bodyA1⟩ ⟨rfl, rfl, rfl⟩ (fun _ _ => rfl) rfl⟩

/-- C3, as stated, fails: with a clock whose second changes after the first
reading, the five rows that one run commits carry two different values of
`record_time`. -/
theorem record_time_differs_when_clock_ticks :
    (main sampleLib tickingEnv (State.start none [])).table.map
        (fun row => row.lookup "record_time") =
      [some (.text "2024-05-01 08:00:00"), some (.text "2024-05-01 08:00:01"),
       some (.text "2024-05-01 08:00:01"), some (.text "2024-05-01 08:00:01"),
       some (.text "2024-05-01 08:00:01")] := by
  decide

/-- C3, amended.  The clock is read once per execution, just before it: in
every run the `j`-th execution binds the `j`-th reading of the clock to
`record_time`.  Hence, if the clock shows the same value `t` at each reading
the run makes, the table after the run is the table before it followed by rows
that all carry `t` as `record_time`. -/
theorem record_time_is_reading_of_iteration (lib : Lib) (env : Env) (file : Option Bytes)
    (table : List Row) :
    (∀ (j : Nat) (args : List SqlValue),
      (execsOf (main lib env (State.start file table)).log)[j]? = some args →
      args[5]? = some (.text (env.now j))) ∧
    (∀ t, (∀ j, j < (execsOf (main lib env (State.start file table)).log).length →
        env.now j = t) →
      ∃ rows, (main lib env (State.start file table)).table = table ++ rows ∧
        ∀ row ∈ rows, row.lookup "record_time" = some (.text t)) := by
  refine ⟨?_, fun t ht => (steady_clock_shares lib env file table t ht).2⟩
  intro j args hget
  rcases main_cases lib env file table with ⟨body, data, hd, hp⟩ | ⟨h1, _⟩
  · obtain ⟨n, _, hn⟩ := execsOf_main lib env file table body data hd hp
    rw [hn] at hget
    obtain ⟨item, _, rfl⟩ := argsFrom_getElem? env (data.take n) 0 j args hget
    simp [execArgs]
  · rw [h1] at hget
    simp at hget

/-- C3 amended, at five records under the steady clock: the five committed
rows carry the one value the clock shows. -/
theorem record_time_is_reading_of_iteration_witness :
    (∀ j, j < (execsOf (main sampleLib (okEnv bodyFive) (State.start none [])).log).length →
      (okEnv bodyFive).now j = "2024-05-01 08:00:00") ∧
    ∃ rows, (main sampleLib (okEnv bodyFive) (State.start none [])).table = [] ++ rows ∧
      ∀ row ∈ rows, row.lookup "record_time" = some (.text "2024-05-01 08:00:00") :=
  ⟨fun _ _ => rfl,
    (record_time_is_reading_of_iteration sampleLib (okEnv bodyFive) none []).2
      "2024-05-01 08:00:00" (fun _ _ => rfl)⟩

/-- C4, as stated, fails for the commit: in the run of the example scenario
whose commit fails, the transaction was begun, the commit was called and
failed, and the log of the run holds no rollback. -/
theorem commit_failure_without_rollback :
    commitFailsEnv.begin = true ∧ commitFailsEnv.commit = false ∧
    Event.begin ∈ (main sampleLib commitFailsEnv (State.start none [])).log ∧
    Event.commit ∈ (main sampleLib commitFailsEnv (State.start none [])).log ∧
    Event.print .errCommitting ∈ (main sampleLib commitFailsEnv (State.start none [])).log ∧
    Event.rollback ∉ (main sampleLib commitFailsEnv (State.start none [])).log := by
  decide

/-- C4, amended.  In every run in which the transaction was begun: if the
statement preparation or the execution for some record fails, the run calls
rollback exactly once, as its last call before the deferred closes, never
calls commit, and ends with no transaction open; if neither fails, the run
calls commit and, whether the commit succeeds or fails, never calls
rollback. -/
theorem rollback_on_failure_before_commit (lib : Lib) (env : Env) (file : Option Bytes)
    (table : List Row) (body : Bytes) (data : List TrafficData)
    (hd : Decoded lib env body data) (hopen : env.sqlOpen = true) (hbegin : env.begin = true) :
    ((env.prepare = false ∨ ∃ k, k < data.length ∧ env.exec k = false) →
      (main lib env (State.start file table)).log.count .rollback = 1 ∧
      (∃ pre,
        (main lib env (State.start file table)).log = pre ++ [.rollback, .dbClose, .bodyClose] ∨
        (main lib env (State.start file table)).log =
          pre ++ [.rollback, .stmtClose, .dbClose, .bodyClose]) ∧
      Event.commit ∉ (main lib env (State.start file table)).log ∧
      (main lib env (State.start file table)).tx = none) ∧
    (env.prepare = true → (∀ k, k < data.length → env.exec k = true) →
      Event.commit ∈ (main lib env (State.start file table)).log ∧
      Event.rollback ∉ (main lib env (State.start file table)).log) := by
  constructor
  · intro hfail
    by_cases hprep : env.prepare = true
    · rcases hfail with hfail | ⟨k, hk, hfail⟩
      · rw [hprep] at hfail
        cases hfail
      · obtain ⟨m, _, hm⟩ :=
          firstFailure_of_failure env data.length 0 k hk (by simpa using hfail)
        rw [main_loaded lib env file table body data hd ⟨hopen, hbegin, hprep⟩, hm]
        refine ⟨?_, ⟨fetchLog body ++ openLog ++ iterLog env 0 (data.take (m + 1)) ++
          [.print .errInserting], Or.inr (by simp)⟩, ?_, rfl⟩
        · simp [List.count_append, fetchLog, openLog,
            List.count_eq_zero_of_not_mem (rollback_not_mem_iterLog env (data.take (m + 1)) 0)]
        · simp [fetchLog, openLog, commit_not_mem_iterLog]
    · have hprep : env.prepare = false := by simpa using hprep
      rw [main_prepare_error lib env file table body data hd hopen hbegin hprep]
      refine ⟨by simp [fetchLog], ⟨fetchLog body ++ [.getenv "DB_CONNECTION_STRING",
        .sqlOpen "postgres", .begin, .prepare columns, .print .errPreparing],
        Or.inl (by simp)⟩, by simp [fetchLog], rfl⟩
  · intro hprep hexec
    have hf : firstFailure env 0 data.length = none :=
      firstFailure_none env data.length 0 (fun j hj => by simpa using hexec j hj)
    rw [main_loaded lib env file table body data hd ⟨hopen, hbegin, hprep⟩, hf]
    constructor
    · simp
    · simp [fetchLog, openLog, rollback_not_mem_iterLog]

/-- C4 amended, at five records with the failure on the third. -/
theorem rollback_on_failure_before_commit_witness :
    Decoded sampleLib thirdFailsEnv bodyFive fiveRecords ∧ thirdFailsEnv.sqlOpen = true ∧
    thirdFailsEnv.begin = true ∧
    (thirdFailsEnv.prepare = false ∨ ∃ k, k < fiveRecords.length ∧ thirdFailsEnv.exec k = false) ∧
    (main sampleLib thirdFailsEnv (State.start none [])).log.count .rollback = 1 ∧
    (∃ pre,
      (main sampleLib thirdFailsEnv (State.start none [])).log =
        pre ++ [.rollback, .dbClose, .bodyClose] ∨
      (main sampleLib thirdFailsEnv (State.start none [])).log =
        pre ++ [.rollback, .stmtClose, .dbClose, .bodyClose]) ∧
    Event.commit ∉ (main sampleLib thirdFailsEnv (State.start none [])).log ∧
    (main sampleLib thirdFailsEnv (State.start none [])).tx = none :=
  ⟨⟨rfl, rfl, rfl, unmarshal_bodyFive⟩, rfl, rfl, Or.inr ⟨2, by decide, rfl⟩,
    (rollback_on_failure_before_commit sampleLib thirdFailsEnv none [] bodyFive fiveRecords
      ⟨rfl, rfl, rfl, unmarshal_bodyFive⟩ rfl rfl).1 (Or.inr ⟨2, by decide, rfl⟩)⟩

/-! ## Fetch, snapshot, decode -/

/-- C5 (a non-200 response stops the pipeline).  In every run whose response
has a status code other than 200, the run consists of building the request,
sending it, reporting the status and closing the body: the snapshot file and
the table are what they were, no file is written and no datastore call is
made. -/
theorem non_200_stops (lib : Lib) (env : Env) (file : Option Bytes) (table : List Row)
    (resp : Response) (hreq : env.newRequest = true) (hresp : env.response = some resp)
    (hstatus : resp.StatusCode ≠ 200) :
    main lib env (State.start file table) =
      { file := file
        table := table
        tx := none
        log := [.newRequest, .httpDo request, .print (.errStatus resp.StatusCode), .bodyClose] } := by
  simp [main, hreq, hresp, hstatus, State.start, State.emit]

/-- C5 at a response with status 500. -/
theorem non_200_stops_witness :
    status500Env.newRequest = true ∧ status500Env.response = some ⟨500, some bodyA1⟩ ∧
    (⟨500, some bodyA1⟩ : Response).StatusCode ≠ 200 ∧
    main sampleLib status500Env (State.start (some bodyEmpty) [oldRow]) =
      { file := some bodyEmpty
        table := [oldRow]
        tx := none
        log := [.newRequest, .httpDo request, .print (.errStatus 500), .bodyClose] } :=
  ⟨rfl, rfl, by decide,
    non_200_stops sampleLib status500Env (some bodyEmpty) [oldRow] ⟨500, some bodyA1⟩ rfl rfl
      (by decide)⟩

/-- C6 (a malformed body is snapshotted, never loaded).  In every run whose
response has status 200 and a body on which `json.Unmarshal` returns an error:
when the snapshot write succeeds the file holds exactly the bytes of the body,
the write comes before the decode in the log, and the run ends with the report
of the error; when the write fails the decode is not attempted.  Either way
the table is what it was and no datastore call is made. -/
theorem undecodable_body_snapshotted_not_loaded (lib : Lib) (env : Env)
    (file : Option Bytes) (table : List Row) (body : Bytes) (e : UnmarshalError)
    (hreq : env.newRequest = true) (hresp : env.response = some ⟨200, some body⟩)
    (hdec : (Unmarshal lib body).2 = some e) :
    (env.writeFile = true →
      main lib env (State.start file table) =
        { file := some body
          table := table
          tx := none
          log := [.newRequest, .httpDo request, .readAll,
            .writeFile "amapindex.json" body 0o644, .unmarshal,
            .print (.errParsingJSON e), .bodyClose] }) ∧
    (env.writeFile = false → Event.unmarshal ∉ (main lib env (State.start file table)).log) ∧
    (main lib env (State.start file table)).table = table ∧
    ∀ ev ∈ (main lib env (State.start file table)).log, ev.isDatastore = false := by
  cases hw : env.writeFile with
  | true =>
    rw [main_decode_error lib env file table body e hreq hresp hw hdec]
    refine ⟨fun _ => rfl, fun h => Bool.noConfusion h, rfl, ?_⟩
    intro ev hev
    simp only [fetchLog, List.cons_append, List.nil_append, List.mem_cons,
      List.mem_singleton, List.not_mem_nil, or_false] at hev
    rcases hev with rfl | rfl | rfl | rfl | rfl | rfl | rfl <;> rfl
  | false =>
    rw [main_write_error lib env file table body hreq hresp hw]
    refine ⟨fun h => Bool.noConfusion h, fun _ => (by simp), rfl, ?_⟩
    intro ev hev
    simp only [List.mem_cons, List.mem_singleton, List.not_mem_nil, or_false] at hev
    rcases hev with rfl | rfl | rfl | rfl | rfl | rfl <;> rfl

/-- C6 at a body cut short. -/
theorem undecodable_body_snapshotted_not_loaded_witness :
    (okEnv bodyCut).newRequest = true ∧ (okEnv bodyCut).response = some ⟨200, some bodyCut⟩ ∧
    (Unmarshal sampleLib bodyCut).2 = some .malformed ∧
    ((okEnv bodyCut).writeFile = true →
      main sampleLib (okEnv bodyCut) (State.start none [oldRow]) =
        { file := some bodyCut
          table := [oldRow]
          tx := none
          log := [.newRequest, .httpDo request, .readAll,
            .writeFile "amapindex.json" bodyCut 0o644, .unmarshal,
            .print (.errParsingJSON .malformed), .bodyClose] }) ∧
    ((okEnv bodyCut).writeFile = false →
      Event.unmarshal ∉ (main sampleLib (okEnv bodyCut) (State.start none [oldRow])).log) ∧
    (main sampleLib (okEnv bodyCut) (State.start none [oldRow])).table = [oldRow] ∧
    ∀ ev ∈ (main sampleLib (okEnv bodyCut) (State.start none [oldRow])).log,
      ev.isDatastore = false :=
  ⟨rfl, rfl, by decide,
    undecodable_body_snapshotted_not_loaded sampleLib (okEnv bodyCut) none [oldRow] bodyCut
      .malformed rfl rfl (by decide)⟩

/-- C7 (an empty batch is a committed no-op).  In every run that has decoded a
batch of no record and in which the connection, the begin, the prepare and the
commit succeed, the datastore calls are, in order: open, begin, prepare,
commit, then the deferred closes; no execution is made, the only line printed
is the success line, and the table is what it was. -/
theorem empty_batch_commits_nothing (lib : Lib) (env : Env) (file : Option Bytes)
    (table : List Row) (body : Bytes)
    (hd : Decoded lib env body []) (hp : Prepared env) (hcommit : env.commit = true) :
    main lib env (State.start file table) =
      { file := some body
        table := table
        tx := none
        log := [.newRequest, .httpDo request, .readAll,
          .writeFile "amapindex.json" body 0o644, .unmarshal,
          .getenv "DB_CONNECTION_STRING", .sqlOpen "postgres", .begin, .prepare columns,
          .commit, .print .inserted, .stmtClose, .dbClose, .bodyClose] } := by
  rw [main_loaded lib env file table body [] hd hp]
  simp [firstFailure, hcommit, argsFrom, iterLog, fetchLog, openLog]

/-- C7 at the body `[]`. -/
theorem empty_batch_commits_nothing_witness :
    Decoded sampleLib (okEnv bodyEmpty) bodyEmpty [] ∧ Prepared (okEnv bodyEmpty) ∧
    (okEnv bodyEmpty).commit = true ∧
    main sampleLib (okEnv bodyEmpty) (State.start none [oldRow]) =
      { file := some bodyEmpty
        table := [oldRow]
        tx := none
        log := [.newRequest, .httpDo request, .readAll,
          .writeFile "amapindex.json" bodyEmpty 0o644, .unmarshal,
          .getenv "DB_CONNECTION_STRING", .sqlOpen "postgres", .begin, .prepare columns,
          .commit, .print .inserted, .stmtClose, .dbClose, .bodyClose] } :=
  ⟨⟨rfl, rfl, rfl, unmarshal_bodyEmpty⟩, ⟨rfl, rfl, rfl⟩, rfl,
    empty_batch_commits_nothing sampleLib (okEnv bodyEmpty) none [oldRow] bodyEmpty
      ⟨rfl, rfl, rfl, unmarshal_bodyEmpty⟩ ⟨rfl, rfl, rfl⟩ rfl⟩

/-- C8, as stated, fails for a missing member: the body `[{}]` is a JSON array
whose one object lacks all five members; `json.Unmarshal` returns one record of
zero values and no error, and the run commits the row of that record. -/
theorem missing_members_decode_to_zero :
    sampleLib.scan bodyBare = some (.arr [.obj []]) ∧
    Unmarshal sampleLib bodyBare = ([TrafficData.zero], none) ∧
    (main sampleLib (okEnv bodyBare) (State.start none [])).table =
      [[("zone_id", .text ""), ("zone_name", .text ""), ("zone_number", .int 0),
        ("traffic_index", .float ⟨0⟩), ("avg_speed", .float ⟨0⟩),
        ("record_time", .text "2024-05-01 08:00:00")]] :=
  ⟨rfl, by decide, by decide⟩

/-- C8, amended.  For every status-200 body that is a JSON array in which some
object has a member that names one of the five fields and holds a value that
is not `null` and not of the field's JSON type, `json.Unmarshal` returns a type
error, and the run ends with the table as it was and without a datastore call;
when the snapshot write succeeded, it ends with the report of that error. -/
theorem type_mismatch_aborts (lib : Lib) (env : Env) (file : Option Bytes)
    (table : List Row) (body : Bytes) (vs : List JSON) (ms : List (String × JSON))
    (key : String) (v : JSON) (f : Field)
    (hreq : env.newRequest = true) (hresp : env.response = some ⟨200, some body⟩)
    (hscan : lib.scan body = some (.arr vs)) (hobj : JSON.obj ms ∈ vs)
    (hmem : (key, v) ∈ ms) (hfield : fieldOf key = some f)
    (hnull : v.kind ≠ .null) (hkind : v.kind ≠ f.kind) :
    ∃ k, (Unmarshal lib body).2 = some (.typeError k) ∧
      (main lib env (State.start file table)).table = table ∧
      (∀ ev ∈ (main lib env (State.start file table)).log, ev.isDatastore = false) ∧
      (env.writeFile = true →
        (main lib env (State.start file table)).log =
          [.newRequest, .httpDo request, .readAll, .writeFile "amapindex.json" body 0o644,
           .unmarshal, .print (.errParsingJSON (.typeError k)), .bodyClose]) := by
  obtain ⟨k, hk⟩ :=
    array_mismatch lib vs none ms key v f (Or.inl rfl) hobj hmem hfield hnull hkind
  have hu : (Unmarshal lib body).2 = some (.typeError k) := by
    simp only [Unmarshal, hscan, value]
    exact hk
  refine ⟨k, hu, ?_⟩
  cases hw : env.writeFile with
  | true =>
    rw [main_decode_error lib env file table body _ hreq hresp hw hu]
    refine ⟨rfl, ?_, fun _ => rfl⟩
    intro ev hev
    simp only [fetchLog, List.cons_append, List.nil_append, List.mem_cons,
      List.mem_singleton, List.not_mem_nil, or_false] at hev
    rcases hev with rfl | rfl | rfl | rfl | rfl | rfl | rfl <;> rfl
  | false =>
    rw [main_write_error lib env file table body hreq hresp hw]
    refine ⟨rfl, ?_, fun h => Bool.noConfusion h⟩
    intro ev hev
    simp only [List.mem_cons, List.mem_singleton, List.not_mem_nil, or_false] at hev
    rcases hev with rfl | rfl | rfl | rfl | rfl | rfl <;> rfl

/-- C8 amended, at a body whose `id` member is the number 7. -/
theorem type_mismatch_aborts_witness :
    (okEnv bodyNumericId).newRequest = true ∧
    (okEnv bodyNumericId).response = some ⟨200, some bodyNumericId⟩ ∧
    sampleLib.scan bodyNumericId = some (.arr [.obj [("id", .num (lit 7))]]) ∧
    JSON.obj [("id", .num (lit 7))] ∈ [JSON.obj [("id", .num (lit 7))]] ∧
    ("id", JSON.num (lit 7)) ∈ [("id", JSON.num (lit 7))] ∧
    fieldOf "id" = some .id ∧ (JSON.num (lit 7)).kind ≠ .null ∧
    (JSON.num (lit 7)).kind ≠ Field.id.kind ∧
    ∃ k, (Unmarshal sampleLib bodyNumericId).2 = some (.typeError k) ∧
      (main sampleLib (okEnv bodyNumericId) (State.start none [oldRow])).table = [oldRow] ∧
      (∀ ev ∈ (main sampleLib (okEnv bodyNumericId) (State.start none [oldRow])).log,
        ev.isDatastore = false) ∧
      ((okEnv bodyNumericId).writeFile = true →
        (main sampleLib (okEnv bodyNumericId) (State.start none [oldRow])).log =
          [.newRequest, .httpDo request, .readAll,
           .writeFile "amapindex.json" bodyNumericId 0o644,
           .unmarshal, .print (.errParsingJSON (.typeError k)), .bodyClose]) :=
  ⟨rfl, rfl, rfl, List.mem_singleton.2 rfl, List.mem_singleton.2 rfl, by decide, by decide,
    by decide,
    type_mismatch_aborts sampleLib (okEnv bodyNumericId) none [oldRow] bodyNumericId
      [.obj [("id", .num (lit 7))]] [("id", .num (lit 7))] "id" (.num (lit 7)) .id rfl rfl rfl
      (List.mem_singleton.2 rfl) (List.mem_singleton.2 rfl) (by decide) (by decide)
      (by decide)⟩

/-- C9 (the decoder keeps count, order and fields).  For every body that is a
JSON array of N well-formed records (N may be 0), `json.Unmarshal` returns no
error and exactly the N records, in the order of the array, each with the
content its object carries: `id` in `ID`, `index` in `Index`, `name` in `Name`,
`number` in `Number`, `speed` in `Speed`. -/
theorem decoder_preserves_records (lib : Lib) (body : Bytes) (vs : List JSON)
    (recs : List TrafficData) (hscan : lib.scan body = some (.arr vs))
    (hwf : List.Forall₂ (WellFormed lib) vs recs) :
    Unmarshal lib body = (recs, none) := by
  simp only [Unmarshal, hscan, value]
  exact array_of_wellFormed lib vs recs none hwf

theorem recordJSON_wellFormed :
    WellFormed sampleLib (recordJSON "A1" "Zone A" 1) recA1 := by
  refine ⟨_, rfl, ?_, ?_⟩
  · intro f
    cases f
    · exact ⟨("id", .str "A1"), by simp, by decide⟩
    · exact ⟨("index", .num lit5_5), by simp, by decide⟩
    · exact ⟨("name", .str "Zone A"), by simp, by decide⟩
    · exact ⟨("number", .num (lit 1)), by simp, by decide⟩
    · exact ⟨("speed", .num lit32_1), by simp, by decide⟩
  · intro m hm f hf
    simp only [List.mem_cons, List.mem_singleton, List.not_mem_nil, or_false] at hm
    rcases hm with rfl | rfl | rfl | rfl | rfl
    · obtain rfl : Field.id = f := Option.some.inj ((show fieldOf "id" = some .id by decide).symm.trans hf)
      rfl
    · obtain rfl : Field.index = f :=
        Option.some.inj ((show fieldOf "index" = some .index by decide).symm.trans hf)
      exact ⟨lit5_5, rfl, rfl⟩
    · obtain rfl : Field.name = f :=
        Option.some.inj ((show fieldOf "name" = some .name by decide).symm.trans hf)
      rfl
    · obtain rfl : Field.number = f :=
        Option.some.inj ((show fieldOf "number" = some .number by decide).symm.trans hf)
      exact ⟨false, 1, rfl, rfl, by decide, by decide⟩
    · obtain rfl : Field.speed = f :=
        Option.some.inj ((show fieldOf "speed" = some .speed by decide).symm.trans hf)
      exact ⟨lit32_1, rfl, rfl⟩

/-- C9 at the body of the example scenario. -/
theorem decoder_preserves_records_witness :
    sampleLib.scan bodyA1 = some (.arr [recordJSON "A1" "Zone A" 1]) ∧
    List.Forall₂ (WellFormed sampleLib) [recordJSON "A1" "Zone A" 1] [recA1] ∧
    Unmarshal sampleLib bodyA1 = ([⟨"A1", f5_5, "Zone A", 1, f32_1⟩], none) :=
  ⟨rfl, .cons recordJSON_wellFormed .nil,
    decoder_preserves_records sampleLib bodyA1 [recordJSON "A1" "Zone A" 1] [recA1] rfl
      (.cons recordJSON_wellFormed .nil)⟩

/-- C10 (the executions are an ordered prefix of the batch).  In every run that
has decoded a batch of N records and prepared the insert statement: the
statement is prepared once; if the first failing execution is that of record
`k`, the executions of the run are exactly those of records 0 to `k`, in order,
each with the record's fields and the clock reading of its iteration; if no
execution fails, the log splits at the commit into a part that holds exactly
the N executions, in order, and a part that holds none. -/
theorem executions_follow_batch_order (lib : Lib) (env : Env) (file : Option Bytes)
    (table : List Row) (body : Bytes) (data : List TrafficData)
    (hd : Decoded lib env body data) (hp : Prepared env) :
    (main lib env (State.start file table)).log.count (.prepare columns) = 1 ∧
    (∀ k, k < data.length → env.exec k = false → (∀ j, j < k → env.exec j = true) →
      execsOf (main lib env (State.start file table)).log =
        (List.zipWith (fun item j => execArgs item (env.now j)) data
          (List.range data.length)).take (k + 1)) ∧
    ((∀ j, j < data.length → env.exec j = true) →
      ∃ pre post, (main lib env (State.start file table)).log = pre ++ .commit :: post ∧
        execsOf pre =
          List.zipWith (fun item j => execArgs item (env.now j)) data (List.range data.length) ∧
        execsOf post = []) := by
  have hfetch : ∀ l, execsOf (fetchLog body ++ openLog ++ l) = execsOf l := by
    intro l
    simp [execsOf, fetchLog, openLog]
  have hcount : ∀ l, Event.prepare columns ∉ l →
      (fetchLog body ++ openLog ++ l).count (.prepare columns) = 1 := by
    intro l hl
    simp [List.count_append, fetchLog, openLog, List.count_eq_zero_of_not_mem hl]
  refine ⟨?_, ?_, ?_⟩
  · rw [main_loaded lib env file table body data hd hp]
    cases hf : firstFailure env 0 data.length with
    | none =>
      simp only [List.append_assoc]
      rw [← List.append_assoc]
      apply hcount
      simp [prepare_not_mem_iterLog]
    | some k =>
      simp only [List.append_assoc]
      rw [← List.append_assoc]
      apply hcount
      simp [prepare_not_mem_iterLog]
  · intro k hk hfail hbefore
    have hf : firstFailure env 0 data.length = some k :=
      firstFailure_some env data.length 0 k hk (by simpa using hfail)
        (fun j hj => by simpa using hbefore j hj)
    rw [main_loaded lib env file table body data hd hp, hf]
    simp only [List.append_assoc]
    rw [← List.append_assoc, hfetch, execsOf_append, execsOf_iterLog, argsFrom_take,
      argsFrom_eq_zipWith, List.range_eq_range']
    simp [execsOf]
  · intro hall
    have hf : firstFailure env 0 data.length = none :=
      firstFailure_none env data.length 0 (fun j hj => by simpa using hall j hj)
    rw [main_loaded lib env file table body data hd hp, hf]
    refine ⟨fetchLog body ++ openLog ++ iterLog env 0 data,
      [.print (if env.commit then .inserted else .errCommitting), .stmtClose, .dbClose,
        .bodyClose], by simp, ?_, by simp [execsOf]⟩
    have := hfetch (iterLog env 0 data)
    rw [this, execsOf_iterLog, argsFrom_eq_zipWith, List.range_eq_range']

/-- C10 at five records with the failure on the third: three executions, for
the records A1, A2 and A3. -/
theorem executions_follow_batch_order_witness :
    Decoded sampleLib thirdFailsEnv bodyFive fiveRecords ∧ Prepared thirdFailsEnv ∧
    (main sampleLib thirdFailsEnv (State.start none [])).log.count (.prepare columns) = 1 ∧
    execsOf (main sampleLib thirdFailsEnv (State.start none [])).log =
      [[.text "A1", .text "Zone A", .int 1, .float f5_5, .float f32_1,
          .text "2024-05-01 08:00:00"],
       [.text "A2", .text "Zone B", .int 2, .float f5_5, .float f32_1,
          .text "2024-05-01 08:00:00"],
       [.text "A3", .text "Zone C", .int 3, .float f5_5, .float f32_1,
          .text "2024-05-01 08:00:00"]] :=
  ⟨⟨rfl, rfl, rfl, unmarshal_bodyFive⟩, ⟨rfl, rfl, rfl⟩,
    (executions_follow_batch_order sampleLib thirdFailsEnv none [] bodyFive fiveRecords
      ⟨rfl, rfl, rfl, unmarshal_bodyFive⟩ ⟨rfl, rfl, rfl⟩).1,
    (executions_follow_batch_order sampleLib thirdFailsEnv none [] bodyFive fiveRecords
      ⟨rfl, rfl, rfl, unmarshal_bodyFive⟩ ⟨rfl, rfl, rfl⟩).2.1 2 (by decide) rfl
      (by decide)⟩

end AmapTrafficIndex
